import Mathlib

/-!
# Kanban backend: the wiring done by `cmd/main.go`

A shallow embedding of `src/cmd/main.go`.  `main` builds a gin engine, installs
middleware, configures the CORS middleware, registers eight routes and starts
the server on a port read from the environment.

The gin and gin-contrib/cors calls made by `main` are modelled by small
executable definitions named after the library functions they stand for
(`joinPaths`, `RouterGroup.Use`, `RouterGroup.Group`, `RouterGroup.handle`,
`cors.applyCors`, ...).  The packages `internal/config`, `internal/handlers`,
`internal/services` and `internal/repository` are imported by `main.go` but are
not part of the sources at hand; where a statement needs them they are either a
parameter or a definition marked `Modelled from the spec:`.

Go strings are byte strings; every string literal of `main.go` is ASCII, and
the model uses Lean strings.
-/

namespace Kanban

/-! ## Go standard library: `path.Clean`, `path.Join`, `os.Getenv` -/

/-- Split a character list at every slash; the result is never empty. -/
def splitSlash : List Char → List (List Char)
  | [] => [[]]
  | c :: cs =>
    match splitSlash cs with
    | [] => [[]]
    | seg :: rest => if c = '/' then [] :: seg :: rest else (c :: seg) :: rest

/-- Join components with single slashes. -/
def joinSlash : List (List Char) → List Char
  | [] => []
  | [s] => s
  | s :: rest => s ++ '/' :: joinSlash rest

/-- One step of `path.Clean` over the components kept so far (innermost first):
empty and `.` components are dropped, `..` removes the last kept component, is
dropped at the root of a rooted path, and is kept at the front of a relative
one. -/
def cleanStep (rooted : Bool) (out : List (List Char)) (comp : List Char) : List (List Char) :=
  if comp = [] ∨ comp = ['.'] then out
  else if comp = ['.', '.'] then
    match out with
    | [] => if rooted then [] else [comp]
    | last :: before => if last = ['.', '.'] then comp :: out else before
  else comp :: out

/-- Go `path.Clean`: the shortest path equivalent to its argument by purely
lexical processing. -/
def pathClean (p : String) : String :=
  if p = "" then "."
  else
    let rooted := p.data.head? = some '/'
    let comps := ((splitSlash p.data).foldl (cleanStep rooted) []).reverse
    let body := joinSlash comps
    if rooted then String.mk ('/' :: body)
    else if body = [] then "." else String.mk body

/-- Go `path.Join` for two elements: empty elements are ignored, the rest are
joined by a slash and cleaned; the result is empty when both are empty. -/
def pathJoin (a b : String) : String :=
  if a = "" ∧ b = "" then ""
  else if a = "" then pathClean b
  else pathClean (a ++ "/" ++ b)

/-- The process environment: the value bound to each variable name, if any. -/
abbrev Environ := String → Option String

/-- Go `os.Getenv`: the value of the variable, or the empty string when the
variable is not present. -/
def Getenv (env : Environ) (key : String) : String :=
  (env key).getD ""

/-! ## gin: handlers, router groups, engine -/

/-- Configuration record of gin-contrib/cors (`cors.Config`), restricted to the
fields that `main` assigns or that the middleware reads when deciding on an
origin.  `MaxAge` is in hours. -/
structure CorsConfig where
  AllowAllOrigins : Bool
  AllowOrigins : List String
  AllowMethods : List String
  AllowHeaders : List String
  AllowCredentials : Bool
  ExposeHeaders : List String
  MaxAge : Nat
  AllowWildcard : Bool
  deriving DecidableEq, Repr

/-- The seven methods of the task handler that `main` binds to routes. -/
inductive TaskHandler
  | GetTasks | CreateTask | GetTask | UpdateTask | DeleteTask | GetSubtasks | CreateSubtask
  deriving DecidableEq, Repr

/-- The handler functions that occur in `main`: library middleware, the two
logging closures, the health closure and the task handler methods. -/
inductive HandlerFunc
  /-- Library logger: `gin.Logger()` is `Logger []`, `gin.LoggerWithConfig` with `SkipPaths`. -/
  | Logger (skipPaths : List String)
  /-- Library middleware `gin.Recovery()`. -/
  | Recovery
  /-- The closure of `main.go` lines 37-41. -/
  | requestLog
  /-- The middleware `cors.New(config)`. -/
  | cors (config : CorsConfig)
  /-- The closure of `main.go` lines 69-75. -/
  | corsLog
  /-- The closure of `main.go` lines 78-82. -/
  | health
  /-- A method value of `taskHandler`. -/
  | task (h : TaskHandler)
  deriving DecidableEq, Repr

/-- One registered route: method, absolute path pattern and handler chain. -/
structure RouteInfo where
  method : String
  path : String
  handlers : List HandlerFunc
  deriving DecidableEq, Repr

/-- A gin `RouterGroup`: base path and the middleware attached to it. -/
structure RouterGroup where
  basePath : String
  Handlers : List HandlerFunc
  deriving DecidableEq, Repr

/-- A gin `Engine`: its root router group and the routes registered so far, in
registration order. -/
structure Engine where
  root : RouterGroup
  routes : List RouteInfo
  deriving DecidableEq, Repr

/-- The last character of a string, if any (gin `lastChar`). -/
def lastChar (s : String) : Option Char := s.data.getLast?

/-- gin `joinPaths`: an empty relative path leaves the absolute path alone;
otherwise the two are joined and a trailing slash of the relative path is
preserved. -/
def joinPaths (absolutePath relativePath : String) : String :=
  if relativePath = "" then absolutePath
  else
    let finalPath := pathJoin absolutePath relativePath
    if lastChar relativePath = some '/' ∧ lastChar finalPath ≠ some '/' then finalPath ++ "/"
    else finalPath

/-- gin `abortIndex`, the bound on the length of a handler chain. -/
def abortIndex : Nat := 63

/-- gin `RouterGroup.calculateAbsolutePath`. -/
def RouterGroup.calculateAbsolutePath (group : RouterGroup) (relativePath : String) : String :=
  joinPaths group.basePath relativePath

/-- gin `RouterGroup.combineHandlers`: the group's middleware followed by the
given handlers; fails when the chain is too long. -/
def RouterGroup.combineHandlers (group : RouterGroup) (handlers : List HandlerFunc) :
    Except String (List HandlerFunc) :=
  if group.Handlers.length + handlers.length < abortIndex then
    .ok (group.Handlers ++ handlers)
  else .error "too many handlers"

/-- gin `RouterGroup.Use` on a group: append middleware to the group. -/
def RouterGroup.Use (group : RouterGroup) (middleware : List HandlerFunc) : RouterGroup :=
  { group with Handlers := group.Handlers ++ middleware }

/-- gin `Engine.Use`: append middleware to the root group. -/
def Engine.Use (engine : Engine) (middleware : List HandlerFunc) : Engine :=
  { engine with root := engine.root.Use middleware }

/-- gin `RouterGroup.Group`: a new group whose base path extends the parent's
and whose middleware is a copy of the parent's at this moment. -/
def RouterGroup.Group (group : RouterGroup) (relativePath : String) : Except String RouterGroup := do
  let hs ← group.combineHandlers []
  pure { basePath := group.calculateAbsolutePath relativePath, Handlers := hs }

/-! ## gin: route patterns, registration and lookup

gin keeps one radix tree per method and its `addRoute` panics on a malformed
pattern, on a second registration of the same pattern and on a wildcard that
conflicts with an existing path segment.  The tree is modelled by the list of
registered routes together with a check of exactly these three conditions,
in the strict form in which a wildcard segment conflicts with every different
segment at the same place. -/

/-- One path segment of a route pattern. -/
inductive Seg
  | static (s : List Char)
  | param (name : List Char)
  | catchAll (name : List Char)
  deriving DecidableEq, Repr

/-- Whether a segment is a wildcard (`:name` or `*name`). -/
def Seg.isWild : Seg → Bool
  | .static _ => false
  | _ => true

/-- Whether a character list is free of the wildcard markers `:` and `*`. -/
def noWildChar (s : List Char) : Bool :=
  s.all fun c => c ≠ ':' && c ≠ '*'

/-- Read one segment of a pattern; a wildcard must be named and a segment holds
at most one wildcard, which starts the segment. -/
def parseSeg : List Char → Except String Seg
  | ':' :: name =>
    if name = [] then .error "wildcards must be named with a non-empty name"
    else if noWildChar name then .ok (.param name)
    else .error "only one wildcard per path segment is allowed"
  | '*' :: name =>
    if name = [] then .error "wildcards must be named with a non-empty name"
    else if noWildChar name then .ok (.catchAll name)
    else .error "only one wildcard per path segment is allowed"
  | s =>
    if noWildChar s then .ok (.static s)
    else .error "only one wildcard per path segment is allowed"

/-- A catch-all segment may only be the last segment of a pattern. -/
def catchAllLast : List Seg → Bool
  | [] => true
  | [_] => true
  | .catchAll _ :: _ :: _ => false
  | _ :: rest => catchAllLast rest

/-- The segments of a path that starts with a slash. -/
def pathSegments (path : String) : List (List Char) :=
  splitSlash path.data.tail

/-- Read a route pattern into its segments. -/
def parsePattern (path : String) : Except String (List Seg) := do
  let segs ← (pathSegments path).mapM parseSeg
  if catchAllLast segs then pure segs
  else .error "catch-all routes are only allowed at the end of the path"

/-- Two patterns of one method cannot both be registered when they are equal, or
when at the first place where they differ one of them has a wildcard. -/
def conflicts : List Seg → List Seg → Bool
  | [], [] => true
  | a :: as, b :: bs => if a = b then conflicts as bs else a.isWild || b.isWild
  | _, _ => false

/-- Whether a registered route stands in the way of a new pattern of the given
method. -/
def RouteInfo.blocks (r : RouteInfo) (method : String) (pattern : List Seg) : Bool :=
  r.method = method &&
    match parsePattern r.path with
    | .ok p => conflicts p pattern
    | .error _ => true

/-- gin `Engine.addRoute`: the three assertions on the arguments, then insertion
into the method's tree, which fails on a malformed or conflicting pattern. -/
def Engine.addRoute (engine : Engine) (method path : String) (handlers : List HandlerFunc) :
    Except String Engine := do
  if path.data.head? ≠ some '/' then throw "path must begin with '/'"
  if method = "" then throw "HTTP method can not be empty"
  if handlers = [] then throw "there must be at least one handler"
  let pattern ← parsePattern path
  if engine.routes.any (fun r => r.blocks method pattern) then
    throw "conflicts with an existing route"
  pure { engine with routes := engine.routes ++ [{ method := method, path := path, handlers := handlers }] }

/-- gin `RouterGroup.handle`: register the handlers, behind the group's
middleware, under the group's base path extended by the relative path. -/
def RouterGroup.handle (group : RouterGroup) (engine : Engine) (httpMethod relativePath : String)
    (handlers : List HandlerFunc) : Except String Engine := do
  let absolutePath := group.calculateAbsolutePath relativePath
  let handlers ← group.combineHandlers handlers
  engine.addRoute httpMethod absolutePath handlers

/-- gin `RouterGroup.GET`. -/
def RouterGroup.GET (group : RouterGroup) (engine : Engine) (relativePath : String)
    (h : HandlerFunc) : Except String Engine :=
  group.handle engine "GET" relativePath [h]

/-- gin `RouterGroup.POST`. -/
def RouterGroup.POST (group : RouterGroup) (engine : Engine) (relativePath : String)
    (h : HandlerFunc) : Except String Engine :=
  group.handle engine "POST" relativePath [h]

/-- gin `RouterGroup.PUT`. -/
def RouterGroup.PUT (group : RouterGroup) (engine : Engine) (relativePath : String)
    (h : HandlerFunc) : Except String Engine :=
  group.handle engine "PUT" relativePath [h]

/-- gin `RouterGroup.DELETE`. -/
def RouterGroup.DELETE (group : RouterGroup) (engine : Engine) (relativePath : String)
    (h : HandlerFunc) : Except String Engine :=
  group.handle engine "DELETE" relativePath [h]

/-- gin `New`: an engine with an empty root group at `/` and no routes. -/
def gin.New : Engine :=
  { root := { basePath := "/", Handlers := [] }, routes := [] }

/-- gin `Default`: a new engine with the logger and recovery middleware. -/
def gin.Default : Engine :=
  gin.New.Use [.Logger [], .Recovery]

/-- Whether a pattern matches the segments of a request path: a static segment
matches itself, a parameter matches one segment, which may be empty only when
more of the path follows, a catch-all matches whatever remains. -/
def matchSegs : List Seg → List (List Char) → Bool
  | [], [] => true
  | .static s :: ps, x :: xs => s = x && matchSegs ps xs
  | .param _ :: ps, x :: xs => (x ≠ [] || xs ≠ []) && matchSegs ps xs
  | .catchAll _ :: _, _ :: _ => true
  | _, _ => false

/-- Whether a registered route answers a request with this method and path. -/
def RouteInfo.matches (r : RouteInfo) (method path : String) : Bool :=
  r.method = method && path.data.head? = some '/' &&
    match parsePattern r.path with
    | .ok p => matchSegs p (pathSegments path)
    | .error _ => false

/-- The route that serves a request, if any. -/
def Engine.lookup (engine : Engine) (method path : String) : Option RouteInfo :=
  engine.routes.find? fun r => r.matches method path

/-! ## gin-contrib/cors -/

/-- Library `cors.DefaultConfig`. -/
def cors.DefaultConfig : CorsConfig :=
  { AllowAllOrigins := false
    AllowOrigins := []
    AllowMethods := ["GET", "POST", "PUT", "PATCH", "DELETE", "HEAD", "OPTIONS"]
    AllowHeaders := ["Origin", "Content-Length", "Content-Type"]
    AllowCredentials := false
    ExposeHeaders := []
    MaxAge := 12
    AllowWildcard := false }

/-- Whether an origin carries one of the default schemas `http://`, `https://`. -/
def validateAllowedSchemas (origin : String) : Bool :=
  "http://".data.isPrefixOf origin.data || "https://".data.isPrefixOf origin.data

/-- Library `Config.Validate`: all-origins excludes an origin list, some origin
must be allowed, and every listed origin holds a star or starts with an allowed
schema. -/
def CorsConfig.Validate (c : CorsConfig) : Except String Unit :=
  if c.AllowAllOrigins ∧ c.AllowOrigins ≠ [] then
    .error "conflict settings: all origins enabled. AllowOrigins is not needed"
  else if ¬ c.AllowAllOrigins ∧ c.AllowOrigins = [] then
    .error "conflict settings: all origins disabled"
  else if c.AllowOrigins.all fun o => o.data.contains '*' || validateAllowedSchemas o then
    .ok ()
  else .error "bad origin: origins must contain '*' or include http://,https://"

/-- The part of a character list before its first star, and the part after it. -/
def splitStar : List Char → List Char × List Char
  | [] => ([], [])
  | c :: cs => if c = '*' then ([], cs) else ((splitStar cs).1.cons c, (splitStar cs).2)

/-- Library `Config.parseWildcardRules`: without `AllowWildcard` there are no
rules; otherwise every origin with a star gives the pair of what stands before
and after the star, the star itself standing for an empty side; two stars in one
origin are an error. -/
def CorsConfig.parseWildcardRules (c : CorsConfig) : Except String (List (List Char × List Char)) :=
  if ¬ c.AllowWildcard then .ok []
  else
    (c.AllowOrigins.filter fun o => o.data.contains '*').mapM fun o =>
      if o.data.count '*' > 1 then .error "only one * is allowed"
      else
        let (before, after) := splitStar o.data
        if before = [] then .ok (['*'], after)
        else if after = [] then .ok (before, ['*'])
        else .ok (before, after)

/-- Library `cors.validateWildcardOrigin`. -/
def validateWildcardOrigin (rules : List (List Char × List Char)) (origin : String) : Bool :=
  rules.any fun w =>
    (w.1 = ['*'] && w.2.isSuffixOf origin.data) ||
    (w.2 = ['*'] && w.1.isPrefixOf origin.data) ||
    (w.1.isPrefixOf origin.data && w.2.isSuffixOf origin.data)

/-- Trim white space at both ends and map upper-case letters to lower case. -/
def normalizeValue (value : String) : String :=
  String.mk (((value.data.dropWhile Char.isWhitespace).reverse.dropWhile
    Char.isWhitespace).reverse.map Char.toLower)

/-- Library `normalize`: normalise every value and keep the first occurrence of
each. -/
def normalize (values : List String) : List String :=
  values.foldl (fun acc v => if normalizeValue v ∈ acc then acc else acc ++ [normalizeValue v]) []

/-- Library `newCors`, the origin part: the configuration is validated, a star
entry turns on all origins, the origin list is normalised and the wildcard
rules are read.  The result is the configuration the middleware runs with. -/
def cors.New (config : CorsConfig) : Except String HandlerFunc := do
  config.Validate
  let _ ← config.parseWildcardRules
  pure (.cors { config with AllowAllOrigins := config.AllowAllOrigins || config.AllowOrigins.contains "*" })

/-- Library `cors.validateOrigin`: all origins allowed, or the origin is equal
to a normalised entry of the list, or it satisfies a wildcard rule. -/
def validateOrigin (config : CorsConfig) (origin : String) : Bool :=
  config.AllowAllOrigins || (normalize config.AllowOrigins).contains origin ||
    match config.parseWildcardRules with
    | .ok rules => validateWildcardOrigin rules origin
    | .error _ => false

/-! ## Requests, contexts and the execution of a handler chain -/

/-- Request headers: canonical header name and value, in order of arrival. -/
abbrev Header := List (String × String)

/-- Go `Header.Get`: the first value of the header, or the empty string. -/
def Header.Get (h : Header) (key : String) : String :=
  match h.find? fun kv => kv.1 = key with
  | some kv => kv.2
  | none => ""

/-- An HTTP request as far as the handlers of `main` read it. -/
structure Request where
  Method : String
  Path : String
  Host : String
  Header : Header
  Body : String

/-- An argument of a `log.Printf` call. -/
inductive LogArg
  | str (s : String)
  | header (h : Header)
  | list (xs : List String)
  deriving DecidableEq, Repr

/-- A line written to the log. -/
inductive LogEntry
  /-- The access line of a gin logger configured with the given `SkipPaths`. -/
  | access (skipPaths : List String) (status : Nat) (method path : String)
  /-- A call of `log.Printf`. -/
  | printf (format : String) (args : List LogArg)
  deriving DecidableEq, Repr

/-- A gin context during the handling of one request: the response so far,
whether the chain was aborted, the log, and the state of the store. -/
structure Context (σ : Type) where
  status : Nat
  body : String
  aborted : Bool
  log : List LogEntry
  store : σ

/-- The context in which the first handler of a chain starts. -/
def Context.start {σ : Type} (store : σ) (log : List LogEntry) : Context σ :=
  { status := 200, body := "", aborted := false, log := log, store := store }

/-- gin `Context.AbortWithStatus`. -/
def Context.AbortWithStatus {σ : Type} (c : Context σ) (code : Nat) : Context σ :=
  { c with status := code, aborted := true }

/-- gin `Context.JSON` with the body already serialised. -/
def Context.JSON {σ : Type} (c : Context σ) (code : Nat) (json : String) : Context σ :=
  { c with status := code, body := json }

/-- Go `log.Printf`. -/
def Context.Printf {σ : Type} (c : Context σ) (format : String) (args : List LogArg) : Context σ :=
  { c with log := c.log ++ [.printf format args] }

/-- The status with which the middleware answers a preflight request. -/
def optionsResponseStatusCode : Nat := 204

/-- Library `cors.applyCors`: a request without `Origin`, or whose origin is its
own host, passes untouched; an origin that is not valid is answered 403 and the
chain is aborted; a valid preflight request is answered and aborted, any other
valid request passes.  Response headers are not modelled. -/
def cors.applyCors {σ : Type} (config : CorsConfig) (req : Request) (c : Context σ) : Context σ :=
  let origin := req.Header.Get "Origin"
  if origin = "" then c
  else if origin = "http://" ++ req.Host ∨ origin = "https://" ++ req.Host then c
  else if ¬ validateOrigin config origin then c.AbortWithStatus 403
  else if req.Method = "OPTIONS" then c.AbortWithStatus optionsResponseStatusCode
  else c

/-- What a task handler method does with a request and the store: the status
and body it writes and the store it leaves.  The handler package is not part of
the sources at hand, so it is a parameter of the execution. -/
abbrev App (σ : Type) := TaskHandler → Request → σ → (Nat × String) × σ

/-- The body written by the health closure. -/
def healthBody : String := "\x7b\"status\":\"ok\"\x7d"

/-- Run a handler chain as `Context.Next` does: handlers run in order until the
chain ends or is aborted; a logger writes its line after the handlers behind it
have run, unless the path is one of its `SkipPaths`. -/
def runChain {σ : Type} (app : App σ) (req : Request) : List HandlerFunc → Context σ → Context σ
  | [], c => c
  | h :: rest, c =>
    if c.aborted then c
    else
      match h with
      | .Logger skipPaths =>
        let c1 := runChain app req rest c
        if req.Path ∈ skipPaths then c1
        else { c1 with log := c1.log ++ [.access skipPaths c1.status req.Method req.Path] }
      | .Recovery => runChain app req rest c
      | .requestLog =>
        let c1 := c.Printf "Incoming request: %s %s" [.str req.Method, .str req.Path]
        let c2 := c1.Printf "Origin: %s" [.str (req.Header.Get "Origin")]
        runChain app req rest c2
      | .cors config => runChain app req rest (cors.applyCors config req c)
      | .corsLog =>
        let c1 := c.Printf "Request from origin: %s" [.str (req.Header.Get "Origin")]
        let c2 := c1.Printf "Request method: %s" [.str req.Method]
        let c3 := c2.Printf "Request headers: %v" [.header req.Header]
        runChain app req rest c3
      | .health => runChain app req rest (c.JSON 200 healthBody)
      | .task t =>
        let r := app t req c.store
        runChain app req rest { c with status := r.1.1, body := r.1.2, store := r.2 }

/-- Serve one request: the chain of the route that matches it, run from a fresh
context; `none` when no route matches (the no-route answer is not modelled). -/
def Engine.serve {σ : Type} (engine : Engine) (app : App σ) (req : Request) (store : σ) :
    Option (Context σ) :=
  (engine.lookup req.Method req.Path).map fun r =>
    runChain app req r.handlers (Context.start store [])

/-! ## `main` -/

/-- The origins assigned to `config.AllowOrigins` (`main.go` lines 45-51). -/
def allowedOrigins : List String :=
  [ "http://localhost:5173",
    "http://127.0.0.1:5173",
    "https://mytasks-project.vercel.app",
    "https://kanban-front-nu.vercel.app",
    "https://barsuc.ru" ]

/-- The assignments of `main.go` lines 45-65 applied to the configuration that
`cors.DefaultConfig()` returned. -/
def corsConfig (base : CorsConfig) : CorsConfig :=
  let config := base
  let config := { config with AllowOrigins := allowedOrigins }
  let config := { config with AllowMethods := ["GET", "POST", "PUT", "DELETE", "OPTIONS", "PATCH"] }
  let config := { config with AllowHeaders :=
    [ "Origin",
      "Content-Type",
      "Accept",
      "Authorization",
      "X-Requested-With",
      "Access-Control-Allow-Origin",
      "Access-Control-Allow-Headers" ] }
  let config := { config with ExposeHeaders := ["Content-Length", "Content-Type"] }
  let config := { config with AllowCredentials := false }
  config

/-- The listen address of `main.go` lines 100-106: a colon and the value of
`PORT`, or a colon and `8080` when that value is empty. -/
def listenAddr (env : Environ) : String :=
  let port := Getenv env "PORT"
  let port := if port = "" then "8080" else port
  ":" ++ port

/-- What `main` has built when it calls `r.Run`, and what it has logged. -/
structure Startup where
  engine : Engine
  config : CorsConfig
  log : List LogEntry
  addr : String
  deriving DecidableEq, Repr

/-- The in-process part of `main` (`main.go` lines 29-106) up to the call of
`r.Run`: engine, middleware, CORS configuration, routes and listen address.  An
error stands for a panic of a library call.  The three constructors of lines
21-27 only build the handler value whose methods are bound below. -/
def startup (env : Environ) : Except String Startup := do
  let r := gin.Default
  let r := r.Use [.Logger ["/health"]]
  let r := r.Use [.requestLog]
  let config := corsConfig cors.DefaultConfig
  let log := [LogEntry.printf "Configured CORS with allowed origins: %v" [.list config.AllowOrigins]]
  let corsMiddleware ← cors.New config
  let r := r.Use [corsMiddleware]
  let r := r.Use [.corsLog]
  let r ← r.root.GET r "/health" .health
  let api ← r.root.Group "/api"
  let tasks ← api.Group "/tasks"
  let r ← tasks.GET r "" (.task .GetTasks)
  let r ← tasks.POST r "" (.task .CreateTask)
  let r ← tasks.GET r "/:id" (.task .GetTask)
  let r ← tasks.PUT r "/:id" (.task .UpdateTask)
  let r ← tasks.DELETE r "/:id" (.task .DeleteTask)
  let r ← tasks.GET r "/:id/subtasks" (.task .GetSubtasks)
  let r ← tasks.POST r "/:id/subtasks" (.task .CreateSubtask)
  pure { engine := r, config := config, log := log, addr := listenAddr env }

/-- The middleware in front of every handler, in the order of installation. -/
def middlewareChain : List HandlerFunc :=
  [.Logger [], .Recovery, .Logger ["/health"], .requestLog,
   .cors (corsConfig cors.DefaultConfig), .corsLog]

/-- The engine that `main` serves. -/
def mainEngine : Engine :=
  { root := { basePath := "/", Handlers := middlewareChain }
    routes :=
      [ { method := "GET", path := "/health", handlers := middlewareChain ++ [.health] },
        { method := "GET", path := "/api/tasks", handlers := middlewareChain ++ [.task .GetTasks] },
        { method := "POST", path := "/api/tasks", handlers := middlewareChain ++ [.task .CreateTask] },
        { method := "GET", path := "/api/tasks/:id", handlers := middlewareChain ++ [.task .GetTask] },
        { method := "PUT", path := "/api/tasks/:id", handlers := middlewareChain ++ [.task .UpdateTask] },
        { method := "DELETE", path := "/api/tasks/:id",
          handlers := middlewareChain ++ [.task .DeleteTask] },
        { method := "GET", path := "/api/tasks/:id/subtasks",
          handlers := middlewareChain ++ [.task .GetSubtasks] },
        { method := "POST", path := "/api/tasks/:id/subtasks",
          handlers := middlewareChain ++ [.task .CreateSubtask] } ] }

/-- A GET request for /health with any host, headers and body. -/
def healthRequest (host : String) (header : Header) (body : String) : Request :=
  { Method := "GET", Path := "/health", Host := host, Header := header, Body := body }

/-- Whether an origin is empty, is the request's own host under `http://` or
`https://`, or is one of the origins listed in `main.go`. -/
def originPasses (origin host : String) : Bool :=
  origin = "" || origin = "http://" ++ host || origin = "https://" ++ host ||
    allowedOrigins.contains origin

/-- Whether a handler is the final handler of a route rather than middleware. -/
def HandlerFunc.isEndpoint : HandlerFunc → Bool
  | .health => true
  | .task _ => true
  | _ => false

/-- The chain of the /health route. -/
def healthChain : List HandlerFunc := middlewareChain ++ [.health]

/-- Whether a segment is a catch-all. -/
def Seg.isCatchAll : Seg → Bool
  | .catchAll _ => true
  | _ => false

/-- The method of a route and the number of segments of its pattern. -/
def RouteInfo.shape (r : RouteInfo) : String × Nat :=
  (r.method,
    match parsePattern r.path with
    | .ok p => p.length
    | .error _ => 0)

/-! ## The process: outside calls, deferred calls and exit

`main` is one function body.  Its calls into the database package and the
blocking call `r.Run` are events; what they do is decided outside the program.
The Go rules modelled here: a deferred call runs when the function returns or
panics, last deferred first; a process whose `main` returns exits with code 0,
one that panics exits with code 2 after the deferred calls; `log.Fatal` prints
its argument and calls `os.Exit(1)`, which ends the process at once without
running deferred calls. -/

/-- The calls of `main` whose effect lies outside the program. -/
inductive Call
  /-- The call `config.InitDB()`. -/
  | InitDB
  /-- The call `config.CloseDB()`. -/
  | CloseDB
  /-- The call `r.Run(addr)`. -/
  | Run (addr : String)
  deriving DecidableEq, Repr

/-- How a call ends: it returns, it panics, it ends the process itself, or it
never returns. -/
inductive Outcome
  | returns
  | panics
  | exits (code : Nat)
  | blocks
  deriving DecidableEq, Repr

/-- What can be observed of a run of the process. -/
inductive Event
  | call (f : Call)
  | exit (code : Nat)
  deriving DecidableEq, Repr

/-- The statements of a function body, as far as control flow goes. -/
inductive Stmt
  /-- A call statement `f()`. -/
  | call (f : Call)
  /-- A statement `defer f()`. -/
  | deferCall (f : Call)
  /-- Statements that stay inside the program and panic or not. -/
  | compute (panics : Bool)
  /-- A statement `log.Fatal(f())`. -/
  | logFatal (f : Call)
  deriving DecidableEq, Repr

/-- Leave the function: run the deferred calls, last deferred first, then exit
with code 0, or 2 when panicking. -/
def unwind (world : Call → Outcome) : Bool → List Call → List Event
  | panicking, [] => [.exit (if panicking then 2 else 0)]
  | panicking, f :: rest =>
    .call f ::
      match world f with
      | .returns => unwind world panicking rest
      | .panics => unwind world true rest
      | .exits code => [.exit code]
      | .blocks => []

/-- Run the statements of `main` with the given stack of deferred calls. -/
def exec (world : Call → Outcome) : List Stmt → List Call → List Event
  | [], deferred => unwind world false deferred
  | .call f :: rest, deferred =>
    .call f ::
      match world f with
      | .returns => exec world rest deferred
      | .panics => unwind world true deferred
      | .exits code => [.exit code]
      | .blocks => []
  | .deferCall f :: rest, deferred => exec world rest (f :: deferred)
  | .compute panics :: rest, deferred =>
    if panics then unwind world true deferred else exec world rest deferred
  | .logFatal f :: _, deferred =>
    .call f ::
      match world f with
      | .returns => [.exit 1]
      | .panics => unwind world true deferred
      | .exits code => [.exit code]
      | .blocks => []

/-- The body of `main` (`main.go` lines 15-107): `config.InitDB()`,
`defer config.CloseDB()`, the in-process startup, `log.Fatal(r.Run(":" + port))`. -/
def mainBody (env : Environ) : List Stmt :=
  match startup env with
  | .ok s => [.call .InitDB, .deferCall .CloseDB, .compute false, .logFatal (.Run s.addr)]
  | .error _ => [.call .InitDB, .deferCall .CloseDB, .compute true]

/-- The events of one run of the process. -/
def main (env : Environ) (world : Call → Outcome) : List Event :=
  exec world (mainBody env) []

/-- The addresses with which `r.Run` is called in a run, in order. -/
def runAddrs (trace : List Event) : List String :=
  trace.filterMap fun e =>
    match e with
    | .call (.Run addr) => some addr
    | _ => none

/-! ## Tasks: store, repository, service and handler

`main.go` only constructs these layers (`repository.NewTaskRepository`,
`services.NewTaskService`, `handlers.NewTaskHandler`) and binds the handler
methods to routes; their code is in packages that are not part of the sources at
hand.  The definitions of this section follow sections 3, 4, 6 and 7 of the
specification.  Whether the store can be reached (section 7) and whether it
rewrites the updated timestamp of a row it updates (which the specification
leaves open) are fields of the store, so that every statement covers both
answers. -/

/-- Modelled from the spec: the enumerated status of a task (section 3); the
model package is missing. -/
inductive Status
  | todo
  | inProgress
  | done
  deriving DecidableEq, Repr

/-- Modelled from the spec: the Task entity of section 3 (identity, title,
description, status, optional parent reference, created and updated
timestamps); the model package is missing. -/
structure Task where
  id : Nat
  title : String
  description : String
  status : Status
  parentID : Option Nat
  createdAt : Nat
  updatedAt : Nat
  deriving DecidableEq, Repr

/-- Modelled from the spec: the durable store of Task rows, which generates ids
and timestamps (sections 3 and 4.1); the database package is missing.
`available` is whether the store can be reached (section 7, `StoreError`);
`restamp` is whether an update writes the clock into the updated timestamp. -/
structure Store where
  tasks : List Task
  nextID : Nat
  now : Nat
  available : Bool
  restamp : Bool
  deriving DecidableEq, Repr

/-- Modelled from the spec: the row stored under an id, if any. -/
def Store.find (store : Store) (id : Nat) : Option Task :=
  store.tasks.find? fun t => t.id = id

/-- Modelled from the spec: the error taxonomy of section 7. -/
inductive DomainError
  | NotFound
  | InvalidParent
  | ValidationError
  | StoreError
  deriving DecidableEq, Repr

/-- Modelled from the spec: the fields of a task to create (section 6: title,
optional description, status and parent). -/
structure TaskFields where
  title : String
  description : Option String
  status : Option Status
  parentID : Option Nat
  deriving DecidableEq, Repr

/-- Modelled from the spec: the explicit structure of optional fields of an
update (sections 3 and 9: title, description, status). -/
structure UpdateFields where
  title : Option String
  description : Option String
  status : Option Status
  deriving DecidableEq, Repr

/-- Modelled from the spec: repository `getByID` (section 4.1), the missing
repository package: `StoreError` when the store cannot be reached, otherwise the
Task with this id, or `NotFound`. -/
def Repository.getByID (store : Store) (id : Nat) : Except DomainError Task :=
  if store.available = false then .error .StoreError
  else
    match store.find id with
    | some t => .ok t
    | none => .error .NotFound

/-- Modelled from the spec: repository `create` (section 4.1), the missing
repository package: persists a new row with generated id and timestamps and
returns it; fails with `StoreError` when the store cannot be reached or the
parent reference names no row.  The status defaults to todo (section 8). -/
def Repository.create (store : Store) (f : TaskFields) : Except DomainError (Task × Store) :=
  let dangling :=
    match f.parentID with
    | some p => (store.find p).isNone
    | none => false
  if store.available = false ∨ dangling = true then .error .StoreError
  else
    let t : Task :=
      { id := store.nextID
        title := f.title
        description := f.description.getD ""
        status := f.status.getD .todo
        parentID := f.parentID
        createdAt := store.now
        updatedAt := store.now }
    .ok (t, { store with tasks := store.tasks ++ [t], nextID := store.nextID + 1 })

/-- Modelled from the spec: the change that an update makes to one row: each
supplied field replaces the stored one (section 4.1, "applies partial field
changes"), and the updated timestamp becomes the given one. -/
def Task.apply (t : Task) (f : UpdateFields) (updatedAt : Nat) : Task :=
  { t with
    title := f.title.getD t.title
    description := f.description.getD t.description
    status := f.status.getD t.status
    updatedAt := updatedAt }

/-- Modelled from the spec: the row as the store keeps it after an update. -/
def Store.updated (store : Store) (t : Task) (f : UpdateFields) : Task :=
  t.apply f (if store.restamp then store.now else t.updatedAt)

/-- Modelled from the spec: repository `update` (section 4.1), the missing
repository package: the error of the lookup when the id is absent or the store
cannot be reached, otherwise the row is changed in place and returned. -/
def Repository.update (store : Store) (id : Nat) (f : UpdateFields) :
    Except DomainError (Task × Store) :=
  match Repository.getByID store id with
  | .error e => .error e
  | .ok t =>
    .ok (store.updated t f,
      { store with tasks := store.tasks.map fun x => if x.id = id then store.updated x f else x })

/-- Modelled from the spec: service `createTask` (section 4.2), the missing
service package: a supplied parent must exist, else `InvalidParent`; any other
error of the lookup is passed on; then the repository creates the row. -/
def Service.createTask (store : Store) (f : TaskFields) : Except DomainError (Task × Store) :=
  match f.parentID with
  | some p =>
    match Repository.getByID store p with
    | .error .NotFound => .error .InvalidParent
    | .error e => .error e
    | .ok _ => Repository.create store f
  | none => Repository.create store f

/-- Modelled from the spec: service `createSubtask` (section 4.2), the missing
service package: `NotFound` when the parent does not exist, any other error of
the lookup passed on, otherwise `createTask` with the parent set. -/
def Service.createSubtask (store : Store) (parentID : Nat) (f : TaskFields) :
    Except DomainError (Task × Store) :=
  match Repository.getByID store parentID with
  | .error e => .error e
  | .ok _ => Service.createTask store { f with parentID := some parentID }

/-- Modelled from the spec: service `update` (section 4.2) passes through to the
repository; the service package is missing. -/
def Service.update (store : Store) (id : Nat) (f : UpdateFields) :
    Except DomainError (Task × Store) :=
  Repository.update store id f

/-- Modelled from the spec: the JSON object of a create request after parsing
(section 4.3: title, description, status, parentID), each field present or
not. -/
structure CreateBody where
  title : Option String
  description : Option String
  status : Option Status
  parentID : Option Nat
  deriving DecidableEq, Repr

/-- Modelled from the spec: what a handler answers: the status code and the
Task it serialises, if any. -/
structure Reply where
  status : Nat
  task : Option Task
  deriving DecidableEq, Repr

/-- Modelled from the spec: the JSON reading and writing of the handlers
(section 4.3), left open: a decoder gives `none` for a malformed body. -/
structure Codec where
  decodeCreate : String → Option CreateBody
  decodeUpdate : String → Option UpdateFields
  encode : Reply → String

/-- Modelled from the spec: the mapping of domain errors to response codes
(section 4.3). -/
def DomainError.code : DomainError → Nat
  | .NotFound => 404
  | .InvalidParent => 400
  | .ValidationError => 400
  | .StoreError => 500

/-- Modelled from the spec: the reading of a task id (section 4.3, "parses path
parameters"): a non-empty run of decimal digits. -/
def parseID (text : List Char) : Option Nat :=
  if text ≠ [] ∧ text.all Char.isDigit = true then
    some (text.foldl (fun n c => 10 * n + (c.toNat - 48)) 0)
  else none

/-- The text bound to `:id` for the patterns /api/tasks/:id and
/api/tasks/:id/subtasks: the third segment of the request path. -/
def Request.idParam (req : Request) : List Char :=
  (pathSegments req.Path).getD 2 []

/-- Modelled from the spec: handler `CreateSubtask` for POST
/api/tasks/:id/subtasks (sections 4.3, 6 and 7), the missing handler package.
An id that is no number, a malformed body or a missing title is answered 400
before the service is called; then the service result is mapped: 201 with the
created Task, or the code of the error. -/
def Handler.CreateSubtask (codec : Codec) (req : Request) (store : Store) : Reply × Store :=
  match parseID req.idParam with
  | none => ({ status := 400, task := none }, store)
  | some id =>
    match codec.decodeCreate req.Body with
    | none => ({ status := 400, task := none }, store)
    | some b =>
      match b.title with
      | none => ({ status := 400, task := none }, store)
      | some title =>
        match Service.createSubtask store id
            { title := title, description := b.description, status := b.status,
              parentID := b.parentID } with
        | .ok (t, store1) => ({ status := 201, task := some t }, store1)
        | .error e => ({ status := e.code, task := none }, store)

/-- Modelled from the spec: handler `UpdateTask` for PUT /api/tasks/:id
(sections 4.3 and 6), the missing handler package.  An id that is no number or
a malformed body is answered 400; otherwise 200 with the updated Task, or the
code of the error. -/
def Handler.UpdateTask (codec : Codec) (req : Request) (store : Store) : Reply × Store :=
  match parseID req.idParam with
  | none => ({ status := 400, task := none }, store)
  | some id =>
    match codec.decodeUpdate req.Body with
    | none => ({ status := 400, task := none }, store)
    | some f =>
      match Service.update store id f with
      | .ok (t, store1) => ({ status := 200, task := some t }, store1)
      | .error e => ({ status := e.code, task := none }, store)

theorem startup_eq (env : Environ) :
    startup env =
      .ok { engine := mainEngine
            config := corsConfig cors.DefaultConfig
            log := [.printf "Configured CORS with allowed origins: %v" [.list allowedOrigins]]
            addr := listenAddr env } := by
  rfl

theorem matchSegs_length (p : List Seg) (hp : p.all (fun s => !s.isCatchAll) = true) :
    ∀ segs, matchSegs p segs = true → segs.length = p.length := by
  induction p with
  | nil =>
    intro segs h
    cases segs with
    | nil => rfl
    | cons x xs => simp [matchSegs] at h
  | cons a as ih =>
    intro segs h
    simp only [List.all_cons, Bool.and_eq_true] at hp
    cases segs with
    | nil => cases a <;> simp [matchSegs] at h
    | cons x xs =>
      cases a with
      | static s =>
        simp only [matchSegs, Bool.and_eq_true] at h
        simp [ih hp.2 xs h.2]
      | param n =>
        simp only [matchSegs, Bool.and_eq_true] at h
        simp [ih hp.2 xs h.2]
      | catchAll n => simp [Seg.isCatchAll] at hp

theorem length_le_one_of_nodup_of_const {α : Type} (k : α) :
    ∀ l : List α, l.Nodup → (∀ x ∈ l, x = k) → l.length ≤ 1
  | [], _, _ => by simp
  | [_], _, _ => by simp
  | a :: b :: rest, hnd, hk => by
    have ha : a = k := hk a (by simp)
    have hb : b = k := hk b (by simp)
    subst ha
    subst hb
    simp at hnd

theorem filter_length_le_one {α β : Type} (key : α → β) (k : β) (f : α → Bool) (l : List α)
    (hnd : (l.map key).Nodup) (hk : ∀ x ∈ l, f x = true → key x = k) :
    (l.filter f).length ≤ 1 := by
  have hsub : ((l.filter f).map key).Sublist (l.map key) :=
    List.Sublist.map key (List.filter_sublist l)
  have h1 := length_le_one_of_nodup_of_const k ((l.filter f).map key) (hnd.sublist hsub) (by
    intro y hy
    obtain ⟨x, hx, rfl⟩ := List.mem_map.1 hy
    have hx2 := List.mem_filter.1 hx
    exact hk x hx2.1 hx2.2)
  simpa using h1

theorem mainEngine_matches_shape (method path : String) :
    ∀ r ∈ mainEngine.routes, r.matches method path = true →
      r.shape = (method, (pathSegments path).length) := by
  intro r hr hm
  have hall : (mainEngine.routes.all fun r =>
      match parsePattern r.path with
      | .ok p => p.all (fun s => !s.isCatchAll)
      | .error _ => false) = true := by decide
  have hwild := List.all_eq_true.1 hall r hr
  cases hp : parsePattern r.path with
  | error e => simp [hp] at hwild
  | ok p =>
    simp only [hp] at hwild
    simp only [RouteInfo.matches, hp, Bool.and_eq_true, decide_eq_true_eq] at hm
    simp only [RouteInfo.shape, hp, hm.1.1, matchSegs_length p hwild _ hm.2]

theorem validateOrigin_main (origin : String) :
    validateOrigin (corsConfig cors.DefaultConfig) origin = allowedOrigins.contains origin := by
  have h1 : normalize (corsConfig cors.DefaultConfig).AllowOrigins = allowedOrigins := by decide
  have h2 : (corsConfig cors.DefaultConfig).parseWildcardRules = .ok [] := rfl
  have h3 : (corsConfig cors.DefaultConfig).AllowAllOrigins = false := rfl
  simp [validateOrigin, h1, h2, h3, validateWildcardOrigin]

theorem lookup_health :
    mainEngine.lookup "GET" "/health" =
      some { method := "GET", path := "/health", handlers := healthChain } := by
  decide

theorem applyCors_main {σ : Type} (req : Request) (c : Context σ) (hm : req.Method = "GET") :
    cors.applyCors (corsConfig cors.DefaultConfig) req c =
      if originPasses (req.Header.Get "Origin") req.Host then c else c.AbortWithStatus 403 := by
  unfold cors.applyCors originPasses
  simp only [validateOrigin_main, hm]
  by_cases h1 : req.Header.Get "Origin" = ""
  · simp [h1]
  · by_cases h2 : req.Header.Get "Origin" = "http://" ++ req.Host
    · simp [h1, h2]
    · by_cases h3 : req.Header.Get "Origin" = "https://" ++ req.Host
      · simp [h1, h3]
      · by_cases h4 : allowedOrigins.contains (req.Header.Get "Origin") = true
        · simp [h1, h2, h3, h4]
        · simp [h1, h2, h3, h4]

/-- C1: for every environment `main` registers exactly eight routes, in this
order: GET /health, GET and POST /api/tasks, GET, PUT and DELETE
/api/tasks/:id, GET and POST /api/tasks/:id/subtasks; the last handler of each
chain is the health closure for /health and, for the seven /api routes,
GetTasks, CreateTask, GetTask, UpdateTask, DeleteTask, GetSubtasks and
CreateSubtask respectively. -/
theorem C1_registered_routes (env : Environ) :
    ∃ s, startup env = .ok s ∧
      s.engine.routes.map (fun r => (r.method, r.path, r.handlers.getLast?)) =
        [ ("GET", "/health", some .health),
          ("GET", "/api/tasks", some (.task .GetTasks)),
          ("POST", "/api/tasks", some (.task .CreateTask)),
          ("GET", "/api/tasks/:id", some (.task .GetTask)),
          ("PUT", "/api/tasks/:id", some (.task .UpdateTask)),
          ("DELETE", "/api/tasks/:id", some (.task .DeleteTask)),
          ("GET", "/api/tasks/:id/subtasks", some (.task .GetSubtasks)),
          ("POST", "/api/tasks/:id/subtasks", some (.task .CreateSubtask)) ] := by
  refine ⟨_, startup_eq env, ?_⟩
  show mainEngine.routes.map _ = _
  decide

/-! ## C2: the health endpoint -/

/-- C2, as stated, fails: with PORT unset, a GET request for /health that
carries the header `Origin: https://evil.example` and the host `localhost:8080`
is answered by the CORS middleware with status 403 and an empty body. -/
theorem C2_health_foreign_origin_is_403 :
    ∃ s, startup (fun _ => none) = .ok s ∧
      (s.engine.serve (fun _ _ (st : Unit) => ((200, ""), st))
        (healthRequest "localhost:8080" [("Origin", "https://evil.example")] "") ()).map
        (fun c => (c.status, c.body)) = some (403, "") ∧
      ((403, "") : Nat × String) ≠ (200, healthBody) :=
  ⟨_, startup_eq _, by decide, by decide⟩

/-- C2, amended: for every environment, every behaviour of the task handlers,
every state of the store and every host, header list and body, a GET request
for /health is served by the /health route and leaves the store as it was; it
is answered with status 200 and the body `{"status":"ok"}` when its Origin
header is absent or empty, names the request's own host, or is one of the five
allowed origins, and with status 403 and an empty body otherwise. -/
theorem C2_health_answer (env : Environ) {σ : Type} (app : App σ) (store : σ)
    (host : String) (header : Header) (body : String) :
    ∃ s, startup env = .ok s ∧
      ∃ c, s.engine.serve app (healthRequest host header body) store = some c ∧
        c.store = store ∧
        (c.status, c.body) =
          if originPasses (header.Get "Origin") host then (200, healthBody) else (403, "") := by
  refine ⟨_, startup_eq env, ?_⟩
  show ∃ c, mainEngine.serve app (healthRequest host header body) store = some c ∧ _
  have hl : mainEngine.lookup (healthRequest host header body).Method
      (healthRequest host header body).Path = _ := lookup_health
  simp only [Engine.serve, hl, Option.map_some', Option.some.injEq, exists_eq_left']
  have hm : (healthRequest host header body).Method = "GET" := rfl
  simp only [healthChain, middlewareChain, List.cons_append, List.nil_append, runChain,
    Context.start, Context.Printf, Context.JSON, applyCors_main _ _ hm]
  by_cases hpass : originPasses (header.Get "Origin") host = true
  · simp [healthRequest, hpass]
  · simp [healthRequest, hpass, Context.AbortWithStatus]

/-! ## C3: listen address -/

/-- C3: in every run of `main`, for every environment and every behaviour of
the outside calls, `r.Run` is called exactly once when `config.InitDB` returns
and not at all otherwise, and the address it is called with is a colon followed
by the value of PORT when that value is not empty, and `:8080` when PORT is
unset or empty; this address is the one computed by the startup and is a colon
followed by a non-empty port. -/
theorem C3_listen_address (env : Environ) (world : Call → Outcome) :
    runAddrs (main env world) =
        (if world .InitDB = .returns then
          [match env "PORT" with
            | some p => if p = "" then ":8080" else ":" ++ p
            | none => ":8080"]
         else []) ∧
      ∃ s port, startup env = .ok s ∧ port ≠ "" ∧ s.addr = ":" ++ port ∧
        ∀ addr ∈ runAddrs (main env world), addr = s.addr := by
  have hbody : mainBody env =
      [.call .InitDB, .deferCall .CloseDB, .compute false, .logFatal (.Run (listenAddr env))] := by
    simp only [mainBody, startup_eq env]
  have haddr : listenAddr env =
      (match env "PORT" with
        | some p => if p = "" then ":8080" else ":" ++ p
        | none => ":8080") := by
    unfold listenAddr Getenv
    cases h : env "PORT" with
    | none => rfl
    | some p => by_cases hp : p = "" <;> simp [hp]
  have hruns : runAddrs (main env world) =
      if world .InitDB = .returns then [listenAddr env] else [] := by
    unfold main
    rw [hbody]
    cases hinit : world .InitDB <;> cases hrun : world (.Run (listenAddr env)) <;>
      cases hclose : world .CloseDB <;>
      simp [exec, unwind, runAddrs, hinit, hrun, hclose]
  refine ⟨by rw [hruns, haddr], ?_⟩
  have hport : ∃ port, port ≠ "" ∧ listenAddr env = ":" ++ port := by
    unfold listenAddr
    by_cases hp : Getenv env "PORT" = ""
    · exact ⟨"8080", by decide, by simp [hp]⟩
    · exact ⟨Getenv env "PORT", hp, by simp [hp]⟩
  obtain ⟨port, hne, hp⟩ := hport
  refine ⟨_, port, startup_eq env, hne, hp, ?_⟩
  intro addr hmem
  rw [hruns] at hmem
  by_cases hinit : world .InitDB = .returns
  · simpa [hinit] using hmem
  · simp [hinit] at hmem

/-! ## C4: shutdown -/

/-- C4, evaluated on the code: in every run of `main` in which the call of
`r.Run` returns, `config.CloseDB` is not called at all; when `config.InitDB`
returns as well, the run is `InitDB`, `Run`, exit with code 1: the database is
opened before the server runs, and the deferred `CloseDB` is skipped because
`log.Fatal` ends the process. -/
theorem C4_closeDB_skipped_when_run_returns (env : Environ) (world : Call → Outcome)
    (hrun : world (.Run (listenAddr env)) = .returns) :
    Event.call .CloseDB ∉ main env world ∧
      (world .InitDB = .returns →
        main env world = [.call .InitDB, .call (.Run (listenAddr env)), .exit 1]) := by
  have hbody : mainBody env =
      [.call .InitDB, .deferCall .CloseDB, .compute false, .logFatal (.Run (listenAddr env))] := by
    simp only [mainBody, startup_eq env]
  unfold main
  rw [hbody]
  cases hinit : world .InitDB <;> simp [exec, unwind, hrun, hinit]

/-- C4 at a concrete run: PORT unset and every outside call returning, so that
`r.Run(":8080")` returns; the run is `InitDB`, `Run`, exit 1, without
`CloseDB`. -/
theorem C4_closeDB_skipped_witness :
    (fun _ => Outcome.returns : Call → Outcome) (.Run (listenAddr fun _ => none)) = .returns ∧
      Event.call .CloseDB ∉ main (fun _ => none) (fun _ => .returns) ∧
      main (fun _ => none) (fun _ => .returns) =
        [.call .InitDB, .call (.Run ":8080"), .exit 1] :=
  ⟨rfl, (C4_closeDB_skipped_when_run_returns (fun _ => none) (fun _ => .returns) rfl).1,
    (C4_closeDB_skipped_when_run_returns (fun _ => none) (fun _ => .returns) rfl).2 rfl⟩

/-! ## C5: allowed methods and credentials -/

/-- C5: for every environment the configuration handed to the CORS middleware
has the allowed methods GET, POST, PUT, DELETE, OPTIONS, PATCH and no others,
and has credentials disallowed; the same holds whatever configuration
`cors.DefaultConfig` returns.  No request is an input of the configuration. -/
theorem C5_cors_methods_and_credentials (env : Environ) :
    ∃ s, startup env = .ok s ∧
      HandlerFunc.cors s.config ∈ s.engine.root.Handlers ∧
      s.config.AllowMethods = ["GET", "POST", "PUT", "DELETE", "OPTIONS", "PATCH"] ∧
      (∀ m, m ∈ s.config.AllowMethods ↔
        m = "GET" ∨ m = "POST" ∨ m = "PUT" ∨ m = "DELETE" ∨ m = "OPTIONS" ∨ m = "PATCH") ∧
      s.config.AllowCredentials = false ∧
      ∀ base : CorsConfig,
        (corsConfig base).AllowMethods = s.config.AllowMethods ∧
        (corsConfig base).AllowCredentials = false := by
  refine ⟨_, startup_eq env, ?_, rfl, ?_, rfl, fun base => ⟨rfl, rfl⟩⟩
  · show HandlerFunc.cors (corsConfig cors.DefaultConfig) ∈ mainEngine.root.Handlers
    decide
  · intro m
    simp [corsConfig]

/-! ## C6: origin allow-list -/

/-- C6: for every environment an origin is in the configured AllowOrigins if
and only if it is one of the five literals of `main.go`; no entry is or contains
a star and all-origins is off; the allowed-header and exposed-header lists are
the constants of `main.go`; the three lists are the same whatever configuration
`cors.DefaultConfig` returns. -/
theorem C6_cors_origin_allow_list (env : Environ) :
    ∃ s, startup env = .ok s ∧
      HandlerFunc.cors s.config ∈ s.engine.root.Handlers ∧
      (∀ origin, origin ∈ s.config.AllowOrigins ↔
        origin = "http://localhost:5173" ∨ origin = "http://127.0.0.1:5173" ∨
        origin = "https://mytasks-project.vercel.app" ∨
        origin = "https://kanban-front-nu.vercel.app" ∨ origin = "https://barsuc.ru") ∧
      (s.config.AllowOrigins.all fun o => !o.data.contains '*') = true ∧
      s.config.AllowAllOrigins = false ∧
      s.config.AllowHeaders =
        ["Origin", "Content-Type", "Accept", "Authorization", "X-Requested-With",
         "Access-Control-Allow-Origin", "Access-Control-Allow-Headers"] ∧
      s.config.ExposeHeaders = ["Content-Length", "Content-Type"] ∧
      ∀ base : CorsConfig,
        (corsConfig base).AllowOrigins = s.config.AllowOrigins ∧
        (corsConfig base).AllowHeaders = s.config.AllowHeaders ∧
        (corsConfig base).ExposeHeaders = s.config.ExposeHeaders := by
  refine ⟨_, startup_eq env, ?_, ?_, ?_, rfl, rfl, rfl, fun base => ⟨rfl, rfl, rfl⟩⟩
  · show HandlerFunc.cors (corsConfig cors.DefaultConfig) ∈ mainEngine.root.Handlers
    decide
  · intro origin
    simp [corsConfig, allowedOrigins]
  · show ((corsConfig cors.DefaultConfig).AllowOrigins.all fun o => !o.data.contains '*') = true
    decide

/-! ## C7: subtasks of a missing parent -/

/-- C9, as stated, fails in its last part: with PORT unset, a GET request for
/health with the header `Origin: https://evil.example` runs the chain of the
/health route, which contains the detailed CORS-logging closure, and yet the log
holds only the two lines of the request-logging closure and the access line of
gin.Default's logger: the CORS middleware aborted the chain before the detailed
CORS-logging closure, which skips no path, could log the request. -/
theorem C9_health_foreign_origin_log :
    ∃ s, startup (fun _ => none) = .ok s ∧
      (s.engine.lookup "GET" "/health").map (fun r => decide (HandlerFunc.corsLog ∈ r.handlers)) =
        some true ∧
      (s.engine.serve (fun _ _ (st : Unit) => ((200, ""), st))
        (healthRequest "localhost:8080" [("Origin", "https://evil.example")] "") ()).map
        (fun c => c.log) =
        some [ .printf "Incoming request: %s %s" [.str "GET", .str "/health"],
               .printf "Origin: %s" [.str "https://evil.example"],
               .access [] 403 "GET" "/health" ] :=
  ⟨_, startup_eq _, by decide, by decide⟩

/-- C9, amended: for every environment the root group ends up with the six
middleware in the order gin.Default's logger, recovery, the logger that skips
/health, the request-logging closure, the CORS middleware, the detailed
CORS-logging closure, and the chain of every registered route is exactly these
six followed by the route's own handler, so the CORS middleware stands before
every handler.  A GET request for /health is logged by the request-logging
closure and by gin.Default's logger whatever its headers, never by the logger
that skips /health, and by the detailed CORS-logging closure exactly when the
CORS middleware lets the request through. -/
theorem C9_middleware_chain (env : Environ) :
    ∃ s, startup env = .ok s ∧
      s.engine.root.Handlers =
        [.Logger [], .Recovery, .Logger ["/health"], .requestLog, .cors s.config, .corsLog] ∧
      (∀ r ∈ s.engine.routes, ∃ h : HandlerFunc, h.isEndpoint = true ∧
        r.handlers =
          [.Logger [], .Recovery, .Logger ["/health"], .requestLog, .cors s.config, .corsLog, h]) ∧
      ∀ (σ : Type) (app : App σ) (store : σ) (host : String) (header : Header) (body : String),
        ∃ c, s.engine.serve app (healthRequest host header body) store = some c ∧
          c.log =
            [ .printf "Incoming request: %s %s" [.str "GET", .str "/health"],
              .printf "Origin: %s" [.str (header.Get "Origin")] ] ++
            (if originPasses (header.Get "Origin") host then
              [ .printf "Request from origin: %s" [.str (header.Get "Origin")],
                .printf "Request method: %s" [.str "GET"],
                .printf "Request headers: %v" [.header header] ]
             else []) ++
            [ .access [] (if originPasses (header.Get "Origin") host then 200 else 403)
                "GET" "/health" ] := by
  refine ⟨_, startup_eq env, rfl, ?_, ?_⟩
  · show ∀ r ∈ mainEngine.routes, ∃ h : HandlerFunc, h.isEndpoint = true ∧ r.handlers = _
    intro r hr
    simp only [mainEngine, List.mem_cons, List.mem_singleton, List.not_mem_nil, or_false] at hr
    rcases hr with rfl | rfl | rfl | rfl | rfl | rfl | rfl | rfl <;>
      (refine ⟨_, ?_, rfl⟩; rfl)
  · intro σ app store host header body
    show ∃ c, mainEngine.serve app (healthRequest host header body) store = some c ∧ _
    have hl : mainEngine.lookup (healthRequest host header body).Method
        (healthRequest host header body).Path = _ := lookup_health
    simp only [Engine.serve, hl, Option.map_some', Option.some.injEq, exists_eq_left']
    have hm : (healthRequest host header body).Method = "GET" := rfl
    simp only [healthChain, middlewareChain, List.cons_append, List.nil_append, runChain,
      Context.start, Context.Printf, Context.JSON, applyCors_main _ _ hm]
    by_cases hpass : originPasses (header.Get "Origin") host = true
    · simp [healthRequest, hpass]
    · simp [healthRequest, hpass, Context.AbortWithStatus]

/-! ## C10: registration -/

/-- C10: for every environment the startup of `main` ends without a
registration error; no two registered routes share method and path pattern;
every route other than /health lies under /api/tasks; every pattern is well
formed and each of its wildcards is the parameter `:id` in the third segment;
and every request method and path is matched by at most one registered
route. -/
theorem C10_registration_cannot_fail (env : Environ) :
    ∃ s, startup env = .ok s ∧
      (s.engine.routes.map fun r => (r.method, r.path)).Nodup ∧
      (s.engine.routes.all fun r =>
        r.path = "/health" || "/api/tasks".data.isPrefixOf r.path.data) = true ∧
      ("/api".data.isPrefixOf "/health".data) = false ∧
      (s.engine.routes.all fun r =>
        match parsePattern r.path with
        | .ok p => (List.range p.length).all fun i =>
            !(p.getD i (.static [])).isWild || (i = 2 && p.getD i (.static []) = .param ['i', 'd'])
        | .error _ => false) = true ∧
      ∀ method path : String,
        (s.engine.routes.filter fun r => r.matches method path).length ≤ 1 := by
  refine ⟨_, startup_eq env, ?_, ?_, by decide, ?_, ?_⟩
  · show (mainEngine.routes.map fun r => (r.method, r.path)).Nodup
    decide
  · show (mainEngine.routes.all _) = true
    decide
  · show (mainEngine.routes.all _) = true
    decide
  · intro method path
    show (mainEngine.routes.filter _).length ≤ 1
    exact filter_length_le_one RouteInfo.shape (method, (pathSegments path).length) _ _
      (by decide) (mainEngine_matches_shape method path)

end Kanban
